import Mathlib

/-!
Shallow embedding of the inventory-service reservation core, the event-bus
acknowledgment protocol, and the gateway fan-out layer of the
backend_boilerplate repository.  Every definition is translated from the
TypeScript source: the mongoose `$inc` / `findOneAndUpdate` repository
operations become pure functions on an `InventoryItem`, the fastify route
handlers become functions from an explicit `InventoryState` to a result
paired with the successor state, and the SSE manager becomes a step
function on its client map.  Integer fields of mongoose documents are
modelled as `Int` (update operations run without validators, so negative
values are representable, exactly as in the store).
-/

set_option autoImplicit false

namespace Boilerplate

/-- Ledger entry, from `inventory.model.ts` (`part_011`): one document per
`productId` with `available`, `reserved`, `total`, `reorderLevel` counters. -/
structure InventoryItem where
  productId : String
  sku : String
  available : Int
  reserved : Int
  total : Int
  reorderLevel : Int
deriving Repr, DecidableEq

/-- Reservation status enum from `reservation.model.ts` (`part_010`). -/
inductive ReservationStatus
  | pending
  | confirmed
  | released
deriving Repr, DecidableEq

/-- Reservation document from `reservation.model.ts` (`part_010`);
`expiresAt` is an epoch-millisecond timestamp. -/
structure Reservation where
  id : String
  orderId : String
  productId : String
  quantity : Int
  status : ReservationStatus
  expiresAt : Int
deriving Repr, DecidableEq

/- `InventoryRepository` from `part_008`: each method is a
`findOneAndUpdate` on the single document matching `productId`, modelled
here as a pure function on that document. -/
namespace InventoryRepository

/-- `adjustStock`: `$inc { available: quantity, total: quantity }`. -/
def adjustStock (item : InventoryItem) (quantity : Int) : InventoryItem :=
  { item with available := item.available + quantity, total := item.total + quantity }

/-- `reserve`: conditional update with filter `available: { $gte: quantity }`
and `$inc { available: -quantity, reserved: quantity }`; returns `none`
(no matching document) when the filter fails.  This is the atomic
check-and-decrement; it is defined in the repository but never called by
the routes. -/
def reserve (item : InventoryItem) (quantity : Int) : Option InventoryItem :=
  if item.available ≥ quantity then
    some { item with available := item.available - quantity, reserved := item.reserved + quantity }
  else none

/-- `release`: `$inc { available: quantity, reserved: -quantity }`. -/
def release (item : InventoryItem) (quantity : Int) : InventoryItem :=
  { item with available := item.available + quantity, reserved := item.reserved - quantity }

/-- `confirm`: `$inc { reserved: -quantity, total: -quantity }`; defined in
the repository but never called by any route or consumer. -/
def confirm (item : InventoryItem) (quantity : Int) : InventoryItem :=
  { item with reserved := item.reserved - quantity, total := item.total - quantity }

end InventoryRepository

/- `ReservationRepository` from `reservation.repository.ts`. -/
namespace ReservationRepository

/-- `confirmReservation`: `findByIdAndUpdate(id, { status: 'confirmed' })` —
an unconditional status overwrite, no filter on the current status. -/
def confirmReservation (r : Reservation) : Reservation :=
  { r with status := ReservationStatus.confirmed }

/-- `releaseReservation`: `findByIdAndUpdate(id, { status: 'released' })` —
an unconditional status overwrite, no filter on the current status. -/
def releaseReservation (r : Reservation) : Reservation :=
  { r with status := ReservationStatus.released }

/-- `findExpired`: `find({ status: 'pending', expiresAt: { $lt: now } })`. -/
def findExpired (rs : List Reservation) (now : Int) : List Reservation :=
  rs.filter fun r => decide (r.status = ReservationStatus.pending ∧ r.expiresAt < now)

end ReservationRepository

/-- The persistent state the inventory routes operate on: the ledger entry
for one product (`none` when no document matches) together with the
reservation collection. -/
structure InventoryState where
  item : Option InventoryItem
  reservations : List Reservation
deriving Repr, DecidableEq

/-- The snapshot of the ledger counters that the `POST /reserve` handler
reads with `findByProductId` before it checks and writes (`part_009`,
lines 262-300).  The later `updateById` computes the new counters from
this snapshot, not from the current document. -/
structure ReserveSnapshot where
  available : Int
  reserved : Int
deriving Repr, DecidableEq

/-- Read-and-check phase of `POST /reserve`: load the item and refuse with
`InsufficientStock` when `inventoryItem.available < quantity`. -/
def reserveCheck (item : InventoryItem) (quantity : Int) : Option ReserveSnapshot :=
  if item.available < quantity then none
  else some ⟨item.available, item.reserved⟩

/-- Write phase of `POST /reserve`: `updateById(inventoryItem.id,
{ available: inventoryItem.available - quantity, reserved:
inventoryItem.reserved + quantity })` — absolute values computed from the
snapshot taken in the read phase. -/
def reserveWrite (snap : ReserveSnapshot) (quantity : Int) (item : InventoryItem) : InventoryItem :=
  { item with available := snap.available - quantity, reserved := snap.reserved + quantity }

/-- Outcome of the `POST /reserve` route. -/
inductive ReserveResult
  | notFound
  | insufficientStock (available requested : Int)
  | publishError
  | created (reservationId : String)
deriving Repr, DecidableEq

/-- `POST /reserve` (`part_009`, lines 251-338), run sequentially: load the
item, check availability, persist the pending reservation, persist the
ledger update computed from the snapshot, then publish
`inventory.reserved`.  A publish failure (`publishOk = false`) throws
after both writes, so the mutated state is returned with the error. -/
def reserveRoute (st : InventoryState) (reservationId orderId : String) (quantity : Int)
    (now expiresIn : Int) (publishOk : Bool) : ReserveResult × InventoryState :=
  match st.item with
  | none => (ReserveResult.notFound, st)
  | some item =>
    match reserveCheck item quantity with
    | none => (ReserveResult.insufficientStock item.available quantity, st)
    | some snap =>
      let reservation : Reservation :=
        { id := reservationId, orderId := orderId, productId := item.productId,
          quantity := quantity, status := ReservationStatus.pending,
          expiresAt := now + expiresIn * 1000 }
      let st1 : InventoryState :=
        { item := some (reserveWrite snap quantity item),
          reservations := st.reservations ++ [reservation] }
      if publishOk then (ReserveResult.created reservationId, st1)
      else (ReserveResult.publishError, st1)

/-- Two `POST /reserve` requests against the same ledger entry, interleaved
as: A reads and checks, B reads and checks, A writes, B writes.  Each
request performs its write phase exactly when its own check passed.
Returns the success flags of A and B and the final ledger entry. -/
def twoConcurrentReserves (item : InventoryItem) (qA qB : Int) : Bool × Bool × InventoryItem :=
  match reserveCheck item qA, reserveCheck item qB with
  | some sA, some sB => (true, true, reserveWrite sB qB (reserveWrite sA qA item))
  | some sA, none => (true, false, reserveWrite sA qA item)
  | none, some sB => (false, true, reserveWrite sB qB item)
  | none, none => (false, false, item)

/-- `findById` over the reservation collection. -/
def findReservation (rs : List Reservation) (reservationId : String) : Option Reservation :=
  rs.find? fun r => decide (r.id = reservationId)

/-- Outcome of the `POST /release/:reservationId` route.  `cannotRelease`
is the 400 error response `Reservation cannot be released`. -/
inductive ReleaseResult
  | notFound
  | cannotRelease
  | publishError
  | released
deriving Repr, DecidableEq

/-- `POST /release/:reservationId` (`part_009`, lines 341-403): load the
reservation; 404 when absent; 400 when its status is not `pending`;
otherwise overwrite the status to `released`, credit the ledger entry for
`reservation.productId` with absolute values computed from a fresh read,
and publish `inventory.released`. -/
def releaseRoute (st : InventoryState) (reservationId : String) (publishOk : Bool) :
    ReleaseResult × InventoryState :=
  match findReservation st.reservations reservationId with
  | none => (ReleaseResult.notFound, st)
  | some reservation =>
    if reservation.status ≠ ReservationStatus.pending then (ReleaseResult.cannotRelease, st)
    else
      let reservations1 := st.reservations.map fun r =>
        if r.id = reservationId then { r with status := ReservationStatus.released } else r
      let item1 := st.item.map fun item =>
        if item.productId = reservation.productId then
          { item with available := item.available + reservation.quantity,
                      reserved := item.reserved - reservation.quantity }
        else item
      let st1 : InventoryState := { item := item1, reservations := reservations1 }
      if publishOk then (ReleaseResult.released, st1)
      else (ReleaseResult.publishError, st1)

/-- The `order.created` consumer (`consumers/index.ts`, lines 48-74): for
each reservation of the order that is still `pending`, call
`confirmReservation`.  It performs no ledger operation. -/
def confirmOrderReservations (rs : List Reservation) (orderId : String) : List Reservation :=
  rs.map fun r =>
    if r.orderId = orderId ∧ r.status = ReservationStatus.pending then
      ReservationRepository.confirmReservation r
    else r

/-- The `order.created` consumer as a step on the inventory state: only the
reservation collection is touched, never the ledger entry. -/
def orderCreatedHandler (st : InventoryState) (orderId : String) : InventoryState :=
  { item := st.item, reservations := confirmOrderReservations st.reservations orderId }

/-- One reservation reclaimed by the sweeper (`consumers/index.ts`, lines
116-127): `releaseReservation` (unconditional status overwrite by id)
followed by `inventoryRepository.release` on the matching product. -/
def sweepMutateOne (st : InventoryState) (r : Reservation) : InventoryState :=
  { item := st.item.map fun item =>
      if item.productId = r.productId then InventoryRepository.release item r.quantity
      else item,
    reservations := st.reservations.map fun r' =>
      if r'.id = r.id then ReservationRepository.releaseReservation r' else r' }

/-- One sweeper tick (`consumers/index.ts`, lines 112-138): select with
`findExpired`, then reclaim each selected reservation. -/
def sweepTick (st : InventoryState) (now : Int) : InventoryState :=
  (ReservationRepository.findExpired st.reservations now).foldl sweepMutateOne st

/-- The sweeper race: the tick selects the expired reservations, then the
`order.created` consumer confirms the order's pending reservations, then
the tick processes its selection.  Models a confirmation landing between
the sweeper's selection query and its mutations. -/
def sweeperRaceWithConfirm (st : InventoryState) (now : Int) (orderId : String) : InventoryState :=
  let selected := ReservationRepository.findExpired st.reservations now
  selected.foldl sweepMutateOne (orderCreatedHandler st orderId)

/-- `PATCH /:id` (`part_009`, lines 189-248): when `total` is in the body,
set `available := existing.available + (newTotal - existing.total)` and
overwrite `total`; `reorderLevel` is overwritten when present.  The
update runs without validators, so a negative `available` is stored. -/
def updateInventoryRoute (item : InventoryItem) (newTotal : Option Int)
    (newReorderLevel : Option Int) : InventoryItem :=
  let item1 := match newTotal with
    | some t => { item with available := item.available + (t - item.total), total := t }
    | none => item
  match newReorderLevel with
  | some lvl => { item1 with reorderLevel := lvl }
  | none => item1

/-- `POST /` create (`part_009`, lines 134-186): `available := total`,
`reserved := 0`. -/
def createInventoryRoute (productId sku : String) (total reorderLevel : Int) : InventoryItem :=
  { productId := productId, sku := sku, available := total, reserved := 0,
    total := total, reorderLevel := reorderLevel }

/-- The `product.created` consumer (`consumers/index.ts`, lines 18-45):
`available := stock`, `reserved := 0`, `total := stock`,
`reorderLevel := Math.max(10, Math.floor(stock * 0.1))`. -/
def createFromProductCreated (productId sku : String) (stock : Int) : InventoryItem :=
  { productId := productId, sku := sku, available := stock, reserved := 0,
    total := stock, reorderLevel := max 10 (stock / 10) }

/-- The ledger invariant of the specification: `available + reserved ==
total`, `available >= 0`, `reserved >= 0`. -/
def ledgerInvariant (item : InventoryItem) : Prop :=
  item.available + item.reserved = item.total ∧ 0 ≤ item.available ∧ 0 ≤ item.reserved

instance (item : InventoryItem) : Decidable (ledgerInvariant item) := by
  unfold ledgerInvariant; infer_instance

/-- Domain event as deserialized by the bus (`event-bus/src/index.ts`);
the payload is kept as its serialized text. -/
structure DomainEvent where
  id : String
  type : String
  data : String
deriving Repr, DecidableEq

/-- What the consume callback does with a delivered message: `ack`, or
`nack` carrying the requeue flag passed to `channel.nack`. -/
inductive ConsumeAction
  | ack
  | nack (requeue : Bool)
deriving Repr, DecidableEq

/-- The consume callback of `RabbitEventBus.subscribe`
(`event-bus/src/index.ts`, lines 113-145): parse the message, run the
handler, then `ack`; any throw (parse failure or handler rejection) is
caught and answered with `nack(msg, false, false)`.  `parsed` is the
result of `JSON.parse` (`none` models a parse throw); the handler result
models the awaited handler promise. -/
def consumeMessage (parsed : Option DomainEvent)
    (handler : DomainEvent → Except String Unit) : ConsumeAction :=
  match parsed with
  | none => ConsumeAction.nack false
  | some event =>
    match handler event with
    | Except.ok _ => ConsumeAction.ack
    | Except.error _ => ConsumeAction.nack false

/-- SSE client record from `part_004`: `lastPing` is an epoch-millisecond
timestamp, set from `Date.now()` when the connection object is built. -/
structure SSEClient where
  id : String
  userId : String
  subscriptions : List String
  lastPing : Nat
deriving Repr, DecidableEq

/-- `SSEManager.broadcastToSubscribers` (`part_004`, lines 73-79): deliver
to the clients whose subscription set has the event type itself or the
literal `*` entry. -/
def broadcastToSubscribers (clients : List SSEClient) (eventType : String) : List SSEClient :=
  clients.filter fun c => decide (eventType ∈ c.subscriptions ∨ "*" ∈ c.subscriptions)

/-- Split a character list at the dots, keeping empty segments. -/
def splitOnDot : List Char → List (List Char)
  | [] => [[]]
  | c :: rest =>
    match splitOnDot rest with
    | [] => if c = '.' then [[], []] else [[c]]
    | seg :: segs => if c = '.' then [] :: seg :: segs else (c :: seg) :: segs

/-- Modelled from the spec: topic matching for fan-out subscriptions —
"the event's topic or a matching wildcard pattern (a single `*` segment,
or full `*` meaning all topics)".  A pattern matches a topic when it is
the full `*`, or segment-wise equal with `*` segments matching any one
segment. -/
def topicMatchesSpec (pattern topic : String) : Bool :=
  pattern == "*" ||
    (let ps := splitOnDot pattern.data
     let ts := splitOnDot topic.data
     ps.length == ts.length && (ps.zip ts).all fun pt => pt.1 == ['*'] || pt.1 == pt.2)

/-- The operations the SSE manager performs on its client map
(`part_004`): connect, disconnect, subscription changes, a successful
`sendToClient` write (no state change), a failed write (the catch removes
the client), and the periodic ping sweep. -/
inductive SSEOp
  | addClient (c : SSEClient)
  | removeClient (clientId : String)
  | subscribeClient (clientId : String) (eventTypes : List String)
  | unsubscribeClient (clientId : String) (eventTypes : List String)
  | sendSuccess (clientId : String)
  | sendFailure (clientId : String)
  | pingSweep (now : Nat)

/-- `clients.get(id)` on the manager's map. -/
def lookupClient (clients : List SSEClient) (clientId : String) : Option SSEClient :=
  clients.find? fun c => decide (c.id = clientId)

/-- `clients.set(client.id, client)`: replace the entry with that id, or
append a new one. -/
def addClientOp (clients : List SSEClient) (c : SSEClient) : List SSEClient :=
  if clients.any fun x => decide (x.id = c.id) then
    clients.map fun x => if x.id = c.id then c else x
  else clients ++ [c]

/-- `clients.delete(clientId)`. -/
def removeClientOp (clients : List SSEClient) (clientId : String) : List SSEClient :=
  clients.filter fun c => decide (c.id ≠ clientId)

/-- `subscribeClient`: add the event types to the client's subscription
set. -/
def subscribeClientOp (clients : List SSEClient) (clientId : String)
    (eventTypes : List String) : List SSEClient :=
  clients.map fun c =>
    if c.id = clientId then { c with subscriptions := c.subscriptions ++ eventTypes } else c

/-- `unsubscribeClient`: drop the event types from the client's
subscription set. -/
def unsubscribeClientOp (clients : List SSEClient) (clientId : String)
    (eventTypes : List String) : List SSEClient :=
  clients.map fun c =>
    if c.id = clientId then
      { c with subscriptions := c.subscriptions.filter fun t => decide (t ∉ eventTypes) }
    else c

/-- `pingClients` (`part_004`, lines 97-114): remove every client with
`now - lastPing > 60000`; the others are pinged, which changes nothing in
the map. -/
def pingClientsOp (clients : List SSEClient) (now : Nat) : List SSEClient :=
  clients.filter fun c => decide (now - c.lastPing ≤ 60000)

/-- One SSE manager operation as a step on the client map. -/
def applySSEOp (clients : List SSEClient) : SSEOp → List SSEClient
  | SSEOp.addClient c => addClientOp clients c
  | SSEOp.removeClient i => removeClientOp clients i
  | SSEOp.subscribeClient i ts => subscribeClientOp clients i ts
  | SSEOp.unsubscribeClient i ts => unsubscribeClientOp clients i ts
  | SSEOp.sendSuccess _ => clients
  | SSEOp.sendFailure i => removeClientOp clients i
  | SSEOp.pingSweep now => pingClientsOp clients now

/-- A sequence of SSE manager operations. -/
def applySSEOps (clients : List SSEClient) (ops : List SSEOp) : List SSEClient :=
  ops.foldl applySSEOp clients

/-- Constraints under which an operation leaves the client with id `i`
(whose `lastPing` is `t`) in the map: it is not re-created, not removed by
a disconnect or a write failure, and every ping sweep happens while the
client is not yet past the stale threshold.  No constraint is placed on
sends to it or on its subscription changes. -/
def opKeeps (i : String) (t : Nat) : SSEOp → Prop
  | SSEOp.addClient c => c.id ≠ i
  | SSEOp.removeClient j => j ≠ i
  | SSEOp.subscribeClient _ _ => True
  | SSEOp.unsubscribeClient _ _ => True
  | SSEOp.sendSuccess _ => True
  | SSEOp.sendFailure j => j ≠ i
  | SSEOp.pingSweep now => now ≤ t + 60000

/-! Helper lemmas about lookups in the reservation list and the client
map. -/

theorem lookupClient_map_preserve (clients : List SSEClient) (i : String)
    (f : SSEClient → SSEClient) (hid : ∀ c, (f c).id = c.id) :
    lookupClient (clients.map f) i = (lookupClient clients i).map f := by
  induction clients with
  | nil => rfl
  | cons c cs ih =>
    by_cases h : c.id = i
    · rw [List.map_cons, lookupClient, List.find?_cons_of_pos _ (by simp [hid, h]),
        lookupClient, List.find?_cons_of_pos _ (by simp [h]), Option.map_some']
    · rw [List.map_cons, lookupClient, List.find?_cons_of_neg _ (by simp [hid, h]),
        lookupClient, List.find?_cons_of_neg _ (by simp [h])]
      exact ih

theorem lookupClient_filter_of_kept (clients : List SSEClient) (i : String)
    (q : SSEClient → Bool) (c : SSEClient)
    (hfind : lookupClient clients i = some c) (hq : q c = true) :
    lookupClient (clients.filter q) i = some c := by
  induction clients with
  | nil => simp [lookupClient] at hfind
  | cons x xs ih =>
    by_cases h : x.id = i
    · rw [lookupClient, List.find?_cons_of_pos _ (by simp [h])] at hfind
      obtain rfl : x = c := by simpa using hfind
      rw [List.filter_cons_of_pos hq, lookupClient, List.find?_cons_of_pos _ (by simp [h])]
    · rw [lookupClient, List.find?_cons_of_neg _ (by simp [h])] at hfind
      have ih' := ih hfind
      by_cases hqx : q x = true
      · rw [List.filter_cons_of_pos hqx, lookupClient,
          List.find?_cons_of_neg _ (by simp [h])]
        exact ih'
      · rw [List.filter_cons_of_neg (by simpa using hqx)]
        exact ih'

theorem lookupClient_filter_of_dropped (clients : List SSEClient) (i : String)
    (q : SSEClient → Bool)
    (hdrop : ∀ x ∈ clients, x.id = i → q x = false) :
    lookupClient (clients.filter q) i = none := by
  rw [lookupClient, List.find?_eq_none]
  intro x hx
  have hmem := List.mem_filter.mp hx
  simp only [decide_eq_true_eq]
  intro hxi
  have := hdrop x hmem.1 hxi
  rw [this] at hmem
  exact Bool.false_ne_true hmem.2

theorem lookupClient_append_of_found (clients l2 : List SSEClient) (i : String)
    (c : SSEClient) (h : lookupClient clients i = some c) :
    lookupClient (clients ++ l2) i = some c := by
  induction clients with
  | nil => simp [lookupClient] at h
  | cons x xs ih =>
    by_cases hx : x.id = i
    · rw [lookupClient, List.find?_cons_of_pos _ (by simp [hx])] at h
      rw [List.cons_append, lookupClient, List.find?_cons_of_pos _ (by simp [hx])]
      exact h
    · rw [lookupClient, List.find?_cons_of_neg _ (by simp [hx])] at h
      rw [List.cons_append, lookupClient, List.find?_cons_of_neg _ (by simp [hx])]
      exact ih h

theorem lookupClient_mem (clients : List SSEClient) (i : String) (c : SSEClient)
    (h : lookupClient clients i = some c) : c ∈ clients ∧ c.id = i := by
  refine ⟨List.mem_of_find?_eq_some h, ?_⟩
  have := List.find?_some h
  simpa using this

theorem findReservation_append_of_fresh (rest : List Reservation) (r : Reservation)
    (reservationId : String)
    (hfresh : ∀ x ∈ rest, x.id ≠ reservationId) (hr : r.id = reservationId) :
    findReservation (rest ++ [r]) reservationId = some r := by
  induction rest with
  | nil => simp [findReservation, List.find?, hr]
  | cons x xs ih =>
    have hx : x.id ≠ reservationId := hfresh x (by simp)
    have ih' := ih fun y hy => hfresh y (by simp [hy])
    simpa [findReservation, List.find?, hx] using ih'

theorem findReservation_map_release (rs : List Reservation) (reservationId : String)
    (r : Reservation) (h : findReservation rs reservationId = some r) :
    findReservation
        (rs.map fun r' =>
          if r'.id = reservationId then { r' with status := ReservationStatus.released } else r')
        reservationId
      = some { r with status := ReservationStatus.released } := by
  induction rs with
  | nil => simp [findReservation] at h
  | cons x xs ih =>
    by_cases hx : x.id = reservationId
    · rw [findReservation, List.find?_cons_of_pos _ (by simp [hx])] at h
      obtain rfl : x = r := by simpa using h
      rw [List.map_cons, if_pos hx, findReservation,
        List.find?_cons_of_pos _ (by simp [hx])]
    · rw [findReservation, List.find?_cons_of_neg _ (by simp [hx])] at h
      rw [List.map_cons, if_neg hx, findReservation,
        List.find?_cons_of_neg _ (by simp [hx])]
      exact ih h

/-- C1: the `POST /reserve` handler performs the `available >= quantity`
check and the ledger write as two separate store operations computed from
a prior snapshot, not as one atomic conditional update; two concurrent
Reserve calls of 10 against `available = 10`, interleaved as
read-read-write-write, both succeed, so the total successfully reserved
quantity (20) exceeds the original `available` (10), violating the
claimed bound.  (The atomic `InventoryRepository.reserve` exists in
`part_008` but is never called by the route.) -/
theorem c1_reserve_check_not_atomic :
    twoConcurrentReserves ⟨"p1", "sku1", 10, 0, 10, 10⟩ 10 10
      = (true, true, ⟨"p1", "sku1", 0, 10, 10, 10⟩) ∧
    ¬ ((10 : Int) + 10 ≤ (⟨"p1", "sku1", 10, 0, 10, 10⟩ : InventoryItem).available) := by
  exact ⟨by decide, by decide⟩

/-- C2 counterexample: the ledger invariant does not hold after every
listed operation — starting from the entry `{available:5, reserved:5,
total:10}` (which satisfies the invariant), the `PATCH /:id` total update
with body `total = 0` stores `{available:-5, reserved:5, total:0}`, so
`available >= 0` is violated. -/
theorem c2_patch_breaks_invariant :
    ledgerInvariant ⟨"p1", "sku1", 5, 5, 10, 10⟩ ∧
    updateInventoryRoute ⟨"p1", "sku1", 5, 5, 10, 10⟩ (some 0) none
      = ⟨"p1", "sku1", -5, 5, 0, 10⟩ ∧
    ¬ ledgerInvariant ⟨"p1", "sku1", -5, 5, 0, 10⟩ := by
  exact ⟨by decide, by decide, by decide⟩

/-- C2 amended: every listed operation preserves `available + reserved ==
total`; the create operations establish the full invariant for
non-negative stock, the Reserve check-and-write, the atomic repository
reserve, release and confirm preserve the full invariant under their
natural preconditions, and the Confirm event handler never touches the
ledger entry — but `adjustStock` and the `PATCH /:id` total update
preserve `available >= 0` only under a side condition (the adjustment
must not exceed `available`), and violate it otherwise. -/
theorem c2_ledger_invariant_amended :
    (∀ pid sku stock, 0 ≤ stock → ledgerInvariant (createFromProductCreated pid sku stock)) ∧
    (∀ pid sku tot lvl, 0 ≤ tot → ledgerInvariant (createInventoryRoute pid sku tot lvl)) ∧
    (∀ item q snap, ledgerInvariant item → 0 ≤ q → reserveCheck item q = some snap →
      ledgerInvariant (reserveWrite snap q item)) ∧
    (∀ item q item', ledgerInvariant item → 0 ≤ q →
      InventoryRepository.reserve item q = some item' → ledgerInvariant item') ∧
    (∀ item q, ledgerInvariant item → 0 ≤ q → q ≤ item.reserved →
      ledgerInvariant (InventoryRepository.release item q)) ∧
    (∀ item q, ledgerInvariant item → 0 ≤ q → q ≤ item.reserved →
      ledgerInvariant (InventoryRepository.confirm item q)) ∧
    (∀ st orderId, (orderCreatedHandler st orderId).item = st.item) ∧
    (∀ item q, ledgerInvariant item →
      ((InventoryRepository.adjustStock item q).available +
          (InventoryRepository.adjustStock item q).reserved
        = (InventoryRepository.adjustStock item q).total ∧
       (0 ≤ item.available + q → ledgerInvariant (InventoryRepository.adjustStock item q)))) ∧
    (∀ item t lvl, ledgerInvariant item →
      ((updateInventoryRoute item (some t) lvl).available +
          (updateInventoryRoute item (some t) lvl).reserved
        = (updateInventoryRoute item (some t) lvl).total ∧
       (item.total - item.available ≤ t →
         ledgerInvariant (updateInventoryRoute item (some t) lvl)))) := by
  refine ⟨?_, ?_, ?_, ?_, ?_, ?_, ?_, ?_, ?_⟩
  · intro pid sku stock h
    simp only [createFromProductCreated, ledgerInvariant]
    omega
  · intro pid sku tot lvl h
    simp only [createInventoryRoute, ledgerInvariant]
    omega
  · intro item q snap hinv hq hcheck
    simp only [reserveCheck] at hcheck
    split at hcheck
    · exact absurd hcheck (by simp)
    · obtain rfl : ReserveSnapshot.mk item.available item.reserved = snap := by
        simpa using hcheck
      simp only [reserveWrite, ledgerInvariant] at hinv ⊢
      refine ⟨by omega, by omega, by omega⟩
  · intro item q item' hinv hq hres
    simp only [InventoryRepository.reserve] at hres
    split at hres
    · obtain rfl : _ = item' := by simpa using hres
      simp only [ledgerInvariant] at hinv ⊢
      refine ⟨by omega, by omega, by omega⟩
    · exact absurd hres (by simp)
  · intro item q hinv h0 hle
    simp only [InventoryRepository.release, ledgerInvariant] at hinv ⊢
    refine ⟨by omega, by omega, by omega⟩
  · intro item q hinv h0 hle
    simp only [InventoryRepository.confirm, ledgerInvariant] at hinv ⊢
    refine ⟨by omega, by omega, by omega⟩
  · intro st orderId
    rfl
  · intro item q hinv
    simp only [InventoryRepository.adjustStock, ledgerInvariant] at hinv ⊢
    refine ⟨by omega, fun h => ⟨by omega, by omega, by omega⟩⟩
  · intro item t lvl hinv
    simp only [ledgerInvariant] at hinv
    cases lvl <;>
      simp only [updateInventoryRoute, ledgerInvariant] <;>
      exact ⟨by omega, fun h => ⟨by omega, by omega, by omega⟩⟩

/-- C2 witness: the amended invariant theorem applied at concrete inputs,
each hypothesis discharged by evaluation. -/
theorem c2_ledger_invariant_amended_witness :
    ledgerInvariant (createFromProductCreated "p1" "sku1" 50) ∧
    ledgerInvariant (InventoryRepository.release ⟨"p1", "sku1", 90, 10, 100, 10⟩ 10) ∧
    ledgerInvariant (updateInventoryRoute ⟨"p1", "sku1", 5, 5, 10, 10⟩ (some 7) none) := by
  refine ⟨c2_ledger_invariant_amended.1 "p1" "sku1" 50 (by decide), ?_, ?_⟩
  · exact (c2_ledger_invariant_amended.2.2.2.2.1 ⟨"p1", "sku1", 90, 10, 100, 10⟩ 10
      (by decide) (by decide) (by decide))
  · exact ((c2_ledger_invariant_amended.2.2.2.2.2.2.2.2 ⟨"p1", "sku1", 5, 5, 10, 10⟩ 7 none
      (by decide)).2 (by decide))

/-- C3: the `order.created` consumer confirms a pending reservation by
status overwrite only and performs no ledger operation — starting from
ledger `{available:100, reserved:0, total:100}`, Reserve of 10 followed by
the order-completion confirm leaves the ledger at `{90, 10, 100}`, not at
the `{90, 0, 90}` the claim states (the `InventoryRepository.confirm`
method that would apply `reserved -= q; total -= q` is never called). -/
theorem c3_confirm_leaves_ledger_unchanged :
    (orderCreatedHandler
        (reserveRoute ⟨some ⟨"p1", "sku1", 100, 0, 100, 10⟩, []⟩
          "r1" "orderA" 10 0 1800 true).2 "orderA").item
      = some ⟨"p1", "sku1", 90, 10, 100, 10⟩ ∧
    findReservation
        (orderCreatedHandler
          (reserveRoute ⟨some ⟨"p1", "sku1", 100, 0, 100, 10⟩, []⟩
            "r1" "orderA" 10 0 1800 true).2 "orderA").reservations "r1"
      = some ⟨"r1", "orderA", "p1", 10, ReservationStatus.confirmed, 1800000⟩ ∧
    (orderCreatedHandler
        (reserveRoute ⟨some ⟨"p1", "sku1", 100, 0, 100, 10⟩, []⟩
          "r1" "orderA" 10 0 1800 true).2 "orderA").item
      ≠ some ⟨"p1", "sku1", 90, 0, 90, 10⟩ := by
  exact ⟨by decide, by decide, by decide⟩

/-- C8: the consume callback acknowledges a delivered message exactly when
the handler resolves, and on a handler throw answers `channel.nack(msg,
false, false)` — a negative acknowledgment with the requeue flag false,
so the message is dropped rather than redelivered. -/
theorem c8_ack_protocol (event : DomainEvent) (handler : DomainEvent → Except String Unit) :
    (handler event = Except.ok () → consumeMessage (some event) handler = ConsumeAction.ack) ∧
    (∀ err, handler event = Except.error err →
      consumeMessage (some event) handler = ConsumeAction.nack false) := by
  constructor
  · intro h
    simp [consumeMessage, h]
  · intro err h
    simp [consumeMessage, h]

/-- C8 witness: the acknowledgment theorem applied to a concrete event with
a succeeding handler and with a throwing handler. -/
theorem c8_ack_protocol_witness :
    consumeMessage (some ⟨"e1", "inventory.reserved", "d"⟩) (fun _ => Except.ok ())
      = ConsumeAction.ack ∧
    consumeMessage (some ⟨"e1", "inventory.reserved", "d"⟩) (fun _ => Except.error "boom")
      = ConsumeAction.nack false := by
  constructor
  · exact (c8_ack_protocol ⟨"e1", "inventory.reserved", "d"⟩ (fun _ => Except.ok ())).1 rfl
  · exact (c8_ack_protocol ⟨"e1", "inventory.reserved", "d"⟩
      (fun _ => Except.error "boom")).2 "boom" rfl

/-- C9 counterexample: the SSE broadcaster does not implement wildcard
pattern matching — a connection subscribed to the single-`*`-segment
pattern `order.*` (which matches the topic `order.created` under the
spec's matching rule) receives nothing when `order.created` is
broadcast. -/
theorem c9_wildcard_segment_not_delivered :
    topicMatchesSpec "order.*" "order.created" = true ∧
    broadcastToSubscribers [⟨"c1", "u1", ["order.*"], 0⟩] "order.created" = [] := by
  exact ⟨by decide, by decide⟩

/-- C9 amended: the Fan-out Broadcaster's SSE transport delivers an event
to exactly the live connections whose subscription set contains the
event's exact topic string or the literal full `*` entry; a subscription
that is a wildcard pattern with a `*` segment (and is neither the exact
topic nor the bare `*`) is never matched. -/
theorem c9_broadcast_exact_or_star :
    (∀ clients c eventType,
      c ∈ broadcastToSubscribers clients eventType ↔
        c ∈ clients ∧ (eventType ∈ c.subscriptions ∨ "*" ∈ c.subscriptions)) ∧
    (∀ clients (c : SSEClient) eventType pattern,
      c.subscriptions = [pattern] → pattern ≠ eventType → pattern ≠ "*" →
        c ∉ broadcastToSubscribers clients eventType) := by
  constructor
  · intro clients c eventType
    simp [broadcastToSubscribers, List.mem_filter]
  · intro clients c eventType pattern hsub hne hstar hmem
    have h := (List.mem_filter.mp hmem).2
    simp only [hsub, decide_eq_true_eq, List.mem_singleton] at h
    rcases h with h | h
    · exact hne h.symm
    · exact hstar h.symm

/-- C9 witness: the amended delivery characterization applied at concrete
inputs — an exact-topic subscriber is delivered to, and a connection
subscribed only to `order.*` is excluded. -/
theorem c9_broadcast_exact_or_star_witness :
    (⟨"c2", "u2", ["order.created"], 0⟩ : SSEClient)
      ∈ broadcastToSubscribers
        [⟨"c1", "u1", ["order.*"], 0⟩, ⟨"c2", "u2", ["order.created"], 0⟩] "order.created" ∧
    (⟨"c1", "u1", ["order.*"], 0⟩ : SSEClient)
      ∉ broadcastToSubscribers
        [⟨"c1", "u1", ["order.*"], 0⟩, ⟨"c2", "u2", ["order.created"], 0⟩] "order.created" := by
  constructor
  · exact (c9_broadcast_exact_or_star.1 _ _ _).mpr ⟨by decide, Or.inl (by decide)⟩
  · exact c9_broadcast_exact_or_star.2 _ _ "order.created" "order.*" rfl
      (by decide) (by decide)

/-- C4 counterexample: a reservation that is pending and expired when the
sweeper's selection query runs, and is then confirmed by the
`order.created` consumer before the sweeper processes it, is nevertheless
released and the ledger credited — the claim that the release mutation
itself re-checks the pending status is false: `releaseReservation` is an
unconditional `findByIdAndUpdate` status overwrite. -/
theorem c4_sweeper_releases_confirmed :
    confirmOrderReservations [⟨"r1", "o1", "p1", 10, ReservationStatus.pending, 50⟩] "o1"
      = [⟨"r1", "o1", "p1", 10, ReservationStatus.confirmed, 50⟩] ∧
    sweeperRaceWithConfirm
        ⟨some ⟨"p1", "sku1", 90, 10, 100, 10⟩,
         [⟨"r1", "o1", "p1", 10, ReservationStatus.pending, 50⟩]⟩ 100 "o1"
      = ⟨some ⟨"p1", "sku1", 100, 0, 100, 10⟩,
         [⟨"r1", "o1", "p1", 10, ReservationStatus.released, 50⟩]⟩ := by
  exact ⟨by decide, by decide⟩

/-- C4 amended: the pending-status check of the sweeper lives only in the
selection query (`findExpired`); the release mutation is an unconditional
status overwrite followed by an unconditional ledger credit, so a
reservation selected while pending and expired, then confirmed before the
sweeper's mutation executes, still ends released with the ledger
credited by its quantity. -/
theorem c4_sweep_mutation_unconditional (item : InventoryItem) (r : Reservation)
    (now : Int) (orderId : String)
    (hpend : r.status = ReservationStatus.pending)
    (hexp : r.expiresAt < now)
    (hord : r.orderId = orderId)
    (hprod : item.productId = r.productId) :
    sweeperRaceWithConfirm ⟨some item, [r]⟩ now orderId
      = ⟨some (InventoryRepository.release item r.quantity),
         [{ r with status := ReservationStatus.released }]⟩ := by
  simp [sweeperRaceWithConfirm, ReservationRepository.findExpired, orderCreatedHandler,
    confirmOrderReservations, sweepMutateOne, ReservationRepository.confirmReservation,
    ReservationRepository.releaseReservation, hpend, hexp, hord, hprod]

/-- C4 witness: the amended sweeper-race theorem applied to a concrete
confirmed-between-select-and-mutate reservation. -/
theorem c4_sweep_mutation_unconditional_witness :
    sweeperRaceWithConfirm
        ⟨some ⟨"p2", "sku2", 40, 7, 47, 10⟩,
         [⟨"r9", "o9", "p2", 7, ReservationStatus.pending, 30⟩]⟩ 200 "o9"
      = ⟨some (InventoryRepository.release ⟨"p2", "sku2", 40, 7, 47, 10⟩ 7),
         [⟨"r9", "o9", "p2", 7, ReservationStatus.released, 30⟩]⟩ :=
  c4_sweep_mutation_unconditional ⟨"p2", "sku2", 40, 7, 47, 10⟩
    ⟨"r9", "o9", "p2", 7, ReservationStatus.pending, 30⟩ 200 "o9"
    (by decide) (by decide) rfl rfl

/-- C5 counterexample: a second Release on an already-released reservation
is surfaced to the caller as the 400 response `Reservation cannot be
released`, not as a silent no-op — the first call succeeds and the second
returns `cannotRelease` (while indeed leaving the state unchanged). -/
theorem c5_second_release_is_error :
    releaseRoute
        ⟨some ⟨"p1", "sku1", 90, 10, 100, 10⟩,
         [⟨"r1", "o1", "p1", 10, ReservationStatus.pending, 50⟩]⟩ "r1" true
      = (ReleaseResult.released,
         ⟨some ⟨"p1", "sku1", 100, 0, 100, 10⟩,
          [⟨"r1", "o1", "p1", 10, ReservationStatus.released, 50⟩]⟩) ∧
    releaseRoute
        ⟨some ⟨"p1", "sku1", 100, 0, 100, 10⟩,
         [⟨"r1", "o1", "p1", 10, ReservationStatus.released, 50⟩]⟩ "r1" true
      = (ReleaseResult.cannotRelease,
         ⟨some ⟨"p1", "sku1", 100, 0, 100, 10⟩,
          [⟨"r1", "o1", "p1", 10, ReservationStatus.released, 50⟩]⟩) := by
  exact ⟨by decide, by decide⟩

/-- C5 amended: Release is idempotent on the persistent state — the ledger
and reservation state after two Release calls on the same id equals the
state after the first call alone — but a second call after a successful
release is answered with the 400 error `cannotRelease`, not with a silent
no-op. -/
theorem c5_release_idempotent_state_second_errors (st : InventoryState)
    (reservationId : String) (publishOk : Bool) :
    (releaseRoute (releaseRoute st reservationId publishOk).2 reservationId publishOk).2
      = (releaseRoute st reservationId publishOk).2 ∧
    (∀ r, findReservation st.reservations reservationId = some r →
      r.status = ReservationStatus.pending →
      (releaseRoute (releaseRoute st reservationId publishOk).2 reservationId publishOk).1
        = ReleaseResult.cannotRelease) := by
  cases hf : findReservation st.reservations reservationId with
  | none =>
    refine ⟨?_, ?_⟩
    · simp [releaseRoute, hf]
    · intro r hr hp
      simp [hf] at hr
  | some r =>
    by_cases hs : r.status = ReservationStatus.pending
    · have hmap := findReservation_map_release st.reservations reservationId r hf
      have hstate : (releaseRoute st reservationId publishOk).2
          = { item := st.item.map fun it =>
                if it.productId = r.productId then
                  { it with available := it.available + r.quantity,
                            reserved := it.reserved - r.quantity }
                else it,
              reservations := st.reservations.map fun r' =>
                if r'.id = reservationId then { r' with status := ReservationStatus.released }
                else r' } := by
        cases publishOk <;> simp [releaseRoute, hf, hs]
      refine ⟨?_, ?_⟩
      · rw [hstate]
        simp [releaseRoute, hmap]
      · intro r' hr' hp
        rw [hstate]
        simp [releaseRoute, hmap]
    · have hcall : releaseRoute st reservationId publishOk = (ReleaseResult.cannotRelease, st) := by
        simp [releaseRoute, hf, hs]
      refine ⟨?_, ?_⟩
      · simp [hcall]
      · intro r' hr' hp
        obtain rfl : r = r' := by simpa using hr'
        exact absurd hp hs

/-- C5 witness: the idempotence theorem applied to a concrete state with a
pending reservation — the second call leaves the state of the first call
unchanged and reports the 400 error. -/
theorem c5_release_idempotent_state_second_errors_witness :
    (releaseRoute
        (releaseRoute
          ⟨some ⟨"p1", "sku1", 90, 10, 100, 10⟩,
           [⟨"r1", "o1", "p1", 10, ReservationStatus.pending, 50⟩]⟩ "r1" true).2
        "r1" true).2
      = (releaseRoute
          ⟨some ⟨"p1", "sku1", 90, 10, 100, 10⟩,
           [⟨"r1", "o1", "p1", 10, ReservationStatus.pending, 50⟩]⟩ "r1" true).2 ∧
    (releaseRoute
        (releaseRoute
          ⟨some ⟨"p1", "sku1", 90, 10, 100, 10⟩,
           [⟨"r1", "o1", "p1", 10, ReservationStatus.pending, 50⟩]⟩ "r1" true).2
        "r1" true).1
      = ReleaseResult.cannotRelease := by
  refine ⟨(c5_release_idempotent_state_second_errors _ "r1" true).1, ?_⟩
  exact (c5_release_idempotent_state_second_errors
      ⟨some ⟨"p1", "sku1", 90, 10, 100, 10⟩,
       [⟨"r1", "o1", "p1", 10, ReservationStatus.pending, 50⟩]⟩ "r1" true).2
    ⟨"r1", "o1", "p1", 10, ReservationStatus.pending, 50⟩ (by decide) rfl

/-- C6: Reserve/Release round trip — when `available >= quantity` and the
reservation id is fresh, `POST /reserve` followed by
`POST /release/:reservationId` on the created reservation restores the
ledger entry exactly (`available` and `reserved` back to their
pre-reserve values, `total` untouched), whatever the publish outcomes. -/
theorem c6_reserve_release_round_trip (item : InventoryItem) (rest : List Reservation)
    (reservationId orderId : String) (quantity now expiresIn : Int) (pub1 pub2 : Bool)
    (hq : quantity ≤ item.available)
    (hfresh : ∀ x ∈ rest, x.id ≠ reservationId) :
    (releaseRoute
        (reserveRoute ⟨some item, rest⟩ reservationId orderId quantity now expiresIn pub1).2
        reservationId pub2).2.item
      = some item := by
  have hcheck : reserveCheck item quantity = some ⟨item.available, item.reserved⟩ := by
    simp [reserveCheck, not_lt.mpr hq]
  have h1 : (reserveRoute ⟨some item, rest⟩ reservationId orderId quantity now expiresIn pub1).2
      = ⟨some (reserveWrite ⟨item.available, item.reserved⟩ quantity item),
         rest ++ [⟨reservationId, orderId, item.productId, quantity,
           ReservationStatus.pending, now + expiresIn * 1000⟩]⟩ := by
    cases pub1 <;> simp [reserveRoute, hcheck]
  rw [h1]
  have hfind : findReservation
      (rest ++ [⟨reservationId, orderId, item.productId, quantity,
        ReservationStatus.pending, now + expiresIn * 1000⟩]) reservationId
      = some ⟨reservationId, orderId, item.productId, quantity,
          ReservationStatus.pending, now + expiresIn * 1000⟩ :=
    findReservation_append_of_fresh _ _ _ hfresh rfl
  cases pub2 <;> simp [releaseRoute, hfind, reserveWrite]

/-- C6 witness: the round-trip theorem applied at the ledger entry
`{available:100, reserved:0, total:100}` with quantity 10. -/
theorem c6_reserve_release_round_trip_witness :
    (releaseRoute
        (reserveRoute ⟨some ⟨"p1", "sku1", 100, 0, 100, 10⟩, []⟩
          "r1" "orderA" 10 0 1800 true).2
        "r1" true).2.item
      = some ⟨"p1", "sku1", 100, 0, 100, 10⟩ :=
  c6_reserve_release_round_trip ⟨"p1", "sku1", 100, 0, 100, 10⟩ [] "r1" "orderA"
    10 0 1800 true true (by decide) (by simp)

/-- C7 counterexample: a failed `inventory.reserved` publish does not make
the Reserve operation non-durable — the route persists the pending
reservation and the ledger decrement before publishing, so on a publish
failure the caller gets the error while the mutated ledger entry
`{90, 10, 100}` and the reservation remain stored, unequal to the
pre-operation state. -/
theorem c7_publish_failure_not_rolled_back :
    reserveRoute ⟨some ⟨"p1", "sku1", 100, 0, 100, 10⟩, []⟩ "r1" "o1" 10 0 1800 false
      = (ReserveResult.publishError,
         ⟨some ⟨"p1", "sku1", 90, 10, 100, 10⟩,
          [⟨"r1", "o1", "p1", 10, ReservationStatus.pending, 1800000⟩]⟩) ∧
    (⟨"p1", "sku1", 90, 10, 100, 10⟩ : InventoryItem) ≠ ⟨"p1", "sku1", 100, 0, 100, 10⟩ := by
  exact ⟨by decide, by decide⟩

/-- C7 amended: a publish failure propagates as the failure of the
enclosing Reserve operation, but the state change stays durable — the
route returns the error while the stored state holds the decremented
ledger entry and the new pending reservation, with no rollback. -/
theorem c7_publish_failure_durable_state (st : InventoryState) (item : InventoryItem)
    (reservationId orderId : String) (quantity now expiresIn : Int)
    (hitem : st.item = some item) (hq : quantity ≤ item.available) :
    reserveRoute st reservationId orderId quantity now expiresIn false
      = (ReserveResult.publishError,
         { item := some (reserveWrite ⟨item.available, item.reserved⟩ quantity item),
           reservations := st.reservations ++
             [⟨reservationId, orderId, item.productId, quantity,
               ReservationStatus.pending, now + expiresIn * 1000⟩] }) := by
  have hcheck : reserveCheck item quantity = some ⟨item.available, item.reserved⟩ := by
    simp [reserveCheck, not_lt.mpr hq]
  simp [reserveRoute, hitem, hcheck]

/-- C7 witness: the durable-state theorem applied at the ledger entry
`{available:100, reserved:0, total:100}` with a failing publish. -/
theorem c7_publish_failure_durable_state_witness :
    reserveRoute ⟨some ⟨"p3", "sku3", 100, 0, 100, 10⟩, []⟩ "r3" "o3" 25 0 600 false
      = (ReserveResult.publishError,
         { item := some (reserveWrite ⟨100, 0⟩ 25 ⟨"p3", "sku3", 100, 0, 100, 10⟩),
           reservations := [⟨"r3", "o3", "p3", 25, ReservationStatus.pending, 600000⟩] }) := by
  have h := c7_publish_failure_durable_state ⟨some ⟨"p3", "sku3", 100, 0, 100, 10⟩, []⟩
    ⟨"p3", "sku3", 100, 0, 100, 10⟩ "r3" "o3" 25 0 600 rfl (by decide)
  simpa using h

theorem sse_step_preserves_lastPing (op : SSEOp) (clients : List SSEClient) (i : String)
    (t : Nat) (c : SSEClient)
    (hc : lookupClient clients i = some c) (ht : c.lastPing = t)
    (hkeep : opKeeps i t op) :
    ∃ c', lookupClient (applySSEOp clients op) i = some c' ∧ c'.lastPing = t := by
  obtain ⟨hmem, hid⟩ := lookupClient_mem clients i c hc
  cases op with
  | addClient cl =>
    have hne : cl.id ≠ i := hkeep
    simp only [applySSEOp, addClientOp]
    by_cases hany : clients.any fun x => decide (x.id = cl.id)
    · rw [if_pos hany]
      have hpres : ∀ x : SSEClient, ((if x.id = cl.id then cl else x) : SSEClient).id = x.id := by
        intro x
        by_cases hx : x.id = cl.id
        · simp [hx]
        · simp [hx]
      rw [lookupClient_map_preserve clients i _ hpres, hc]
      refine ⟨if c.id = cl.id then cl else c, rfl, ?_⟩
      rw [if_neg (by rw [hid]; exact fun h => hne h.symm)]
      exact ht
    · rw [if_neg hany]
      exact ⟨c, lookupClient_append_of_found clients [cl] i c hc, ht⟩
  | removeClient j =>
    have hne : j ≠ i := hkeep
    refine ⟨c, ?_, ht⟩
    exact lookupClient_filter_of_kept clients i _ c hc
      (by simp [hid]; exact fun h => hne h.symm)
  | subscribeClient j ts =>
    simp only [applySSEOp, subscribeClientOp]
    have hpres : ∀ x : SSEClient,
        ((if x.id = j then { x with subscriptions := x.subscriptions ++ ts } else x) :
          SSEClient).id = x.id := by
      intro x
      by_cases hx : x.id = j
      · simp [hx]
      · simp [hx]
    rw [lookupClient_map_preserve clients i _ hpres, hc]
    by_cases hcj : c.id = j
    · exact ⟨_, rfl, by simp [hcj, ht]⟩
    · exact ⟨_, rfl, by simp [hcj, ht]⟩
  | unsubscribeClient j ts =>
    simp only [applySSEOp, unsubscribeClientOp]
    have hpres : ∀ x : SSEClient,
        ((if x.id = j then
            { x with subscriptions := x.subscriptions.filter fun s => decide (s ∉ ts) }
          else x) : SSEClient).id = x.id := by
      intro x
      by_cases hx : x.id = j
      · simp [hx]
      · simp [hx]
    rw [lookupClient_map_preserve clients i _ hpres, hc]
    by_cases hcj : c.id = j
    · exact ⟨_, rfl, by simp [hcj, ht]⟩
    · exact ⟨_, rfl, by simp [hcj, ht]⟩
  | sendSuccess j =>
    exact ⟨c, hc, ht⟩
  | sendFailure j =>
    have hne : j ≠ i := hkeep
    refine ⟨c, ?_, ht⟩
    exact lookupClient_filter_of_kept clients i _ c hc
      (by simp [hid]; exact fun h => hne h.symm)
  | pingSweep now =>
    have hnow : now ≤ t + 60000 := hkeep
    refine ⟨c, ?_, ht⟩
    exact lookupClient_filter_of_kept clients i _ c hc
      (by simp [ht]; omega)

theorem sse_trace_preserves_lastPing (ops : List SSEOp) (clients : List SSEClient)
    (i : String) (t : Nat) (c : SSEClient)
    (hc : lookupClient clients i = some c) (ht : c.lastPing = t)
    (hkeep : ∀ op ∈ ops, opKeeps i t op) :
    ∃ c', lookupClient (applySSEOps clients ops) i = some c' ∧ c'.lastPing = t := by
  induction ops generalizing clients c with
  | nil => exact ⟨c, hc, ht⟩
  | cons op ops ih =>
    obtain ⟨c1, h1, ht1⟩ :=
      sse_step_preserves_lastPing op clients i t c hc ht (hkeep op (by simp))
    exact ih _ c1 h1 ht1 fun o ho => hkeep o (by simp [ho])

theorem pingSweep_removes_stale (clients : List SSEClient) (i : String) (c : SSEClient)
    (now : Nat)
    (hnodup : (clients.map SSEClient.id).Nodup)
    (hc : lookupClient clients i = some c)
    (hstale : 60000 < now - c.lastPing) :
    lookupClient (pingClientsOp clients now) i = none := by
  obtain ⟨hmem, hid⟩ := lookupClient_mem clients i c hc
  apply lookupClient_filter_of_dropped
  intro x hx hxi
  have hxc : x = c := by
    have hinj := List.inj_on_of_nodup_map hnodup
    exact hinj hx hmem (by rw [hxi, hid])
  subst hxc
  simp only [decide_eq_false_iff_not, not_le]
  exact hstale

/-- C10: the SSE client's `lastPing` is written only when the connection
record is created — every manager operation (subscription changes,
successful or failing sends, sweeps that do not yet see it stale,
connects and disconnects of other clients) either keeps the client with
its `lastPing` unchanged — and for any connect time at or after the
sweeper start there is a sweep tick, at most 90000 ms after the connect,
whose `now` exceeds `lastPing` by more than the 60000 ms threshold and at
which `pingClients` removes the client even though it is healthy. -/
theorem c10_lastPing_fixed_and_sweep_evicts :
    (∀ (ops : List SSEOp) (clients : List SSEClient) (i : String) (t : Nat) (c : SSEClient),
      lookupClient clients i = some c → c.lastPing = t → (∀ op ∈ ops, opKeeps i t op) →
      ∃ c', lookupClient (applySSEOps clients ops) i = some c' ∧ c'.lastPing = t) ∧
    (∀ (clients : List SSEClient) (i : String) (c : SSEClient) (s0 : Nat),
      (clients.map SSEClient.id).Nodup → lookupClient clients i = some c →
      s0 ≤ c.lastPing →
      ∃ k, s0 + 30000 * (k + 1) ≤ c.lastPing + 90000 ∧
        c.lastPing + 60000 < s0 + 30000 * (k + 1) ∧
        lookupClient (pingClientsOp clients (s0 + 30000 * (k + 1))) i = none) := by
  constructor
  · exact sse_trace_preserves_lastPing
  · intro clients i c s0 hnodup hc hs0
    refine ⟨(c.lastPing - s0) / 30000 + 2, ?_, ?_, ?_⟩
    · have h1 := Nat.div_add_mod (c.lastPing - s0) 30000
      have h2 : (c.lastPing - s0) % 30000 < 30000 := Nat.mod_lt _ (by norm_num)
      omega
    · have h1 := Nat.div_add_mod (c.lastPing - s0) 30000
      have h2 : (c.lastPing - s0) % 30000 < 30000 := Nat.mod_lt _ (by norm_num)
      omega
    · apply pingSweep_removes_stale clients i c _ hnodup hc
      have h1 := Nat.div_add_mod (c.lastPing - s0) 30000
      have h2 : (c.lastPing - s0) % 30000 < 30000 := Nat.mod_lt _ (by norm_num)
      omega

/-- C10 witness: a concrete healthy client connected at 1000 ms keeps
`lastPing = 1000` through a subscribe, a delivered event and an early
sweep, and the sweeper (started at 0) removes it at a tick no later than
91 seconds after connecting. -/
theorem c10_lastPing_fixed_and_sweep_evicts_witness :
    (∃ c', lookupClient
        (applySSEOps [⟨"c1", "u1", ["notification.*"], 1000⟩]
          [SSEOp.subscribeClient "c1" ["order.created"], SSEOp.sendSuccess "c1",
           SSEOp.pingSweep 50000])
        "c1" = some c' ∧ c'.lastPing = 1000) ∧
    (∃ k, 0 + 30000 * (k + 1) ≤ 1000 + 90000 ∧ 1000 + 60000 < 0 + 30000 * (k + 1) ∧
      lookupClient
        (pingClientsOp [⟨"c1", "u1", ["notification.*"], 1000⟩] (0 + 30000 * (k + 1)))
        "c1" = none) := by
  constructor
  · refine c10_lastPing_fixed_and_sweep_evicts.1 _ _ "c1" 1000
      ⟨"c1", "u1", ["notification.*"], 1000⟩ rfl rfl ?_
    intro op hop
    simp only [List.mem_cons, List.not_mem_nil, or_false] at hop
    rcases hop with rfl | rfl | rfl
    · simp [opKeeps]
    · simp [opKeeps]
    · simp only [opKeeps]
      omega
  · exact c10_lastPing_fixed_and_sweep_evicts.2 [⟨"c1", "u1", ["notification.*"], 1000⟩]
      "c1" ⟨"c1", "u1", ["notification.*"], 1000⟩ 0 (by simp) rfl (by omega)

end Boilerplate
